import Mathlib

/-!
Shallow embedding of the agent-based housing-market core of
`real_estate_toolkit` (files `houses.py`, `house_market.py`, `consumers.py`,
`simulation.py`) and proofs about it.

Modelling conventions:
* Python floats are modelled as rationals (`ℚ`); Python ints as `ℤ`
  (list positions as `ℕ`).
* Python exceptions are modelled with `Except Err`; a Lean `if` guard that
  produces `Except.error` models the exception Python division or enum lookup
  raises there, not a check written in the source.
* A consumer's `house` field holds a reference to a house object living in the
  market list; object identity is modelled by the house's position (index) in
  that list.
-/

namespace RealEstateToolkit

/-- Error kinds, named after the spec's error taxonomy.  `divisionByZero`
models both Python's `ZeroDivisionError` and the `ValueError` raised by
`calculate_price_per_square_foot` for a zero area; `invalidSegment` models the
`ValueError` raised by `get_houses_that_meet_requirements` for an unknown
segment string; `valueError` models the `ValueError` an enum lookup
`QualityScore(v)` would raise for an out-of-range value. -/
inductive Err where
  | divisionByZero
  | invalidSegment
  | valueError
  | notFound
deriving DecidableEq, Repr

/-- `QualityScore` enum from `houses.py`: EXCELLENT=5, GOOD=4, AVERAGE=3,
FAIR=2, POOR=1. -/
inductive QualityScore where
  | EXCELLENT
  | GOOD
  | AVERAGE
  | FAIR
  | POOR
deriving DecidableEq, Repr

/-- The numeric `.value` of a `QualityScore` member. -/
def QualityScore.value : QualityScore → ℤ
  | .EXCELLENT => 5
  | .GOOD => 4
  | .AVERAGE => 3
  | .FAIR => 2
  | .POOR => 1

/-- Enum lookup `QualityScore(v)`: the member with value `v`, or the
`ValueError` Python raises when no member has that value. -/
def QualityScore.ofValue (v : ℤ) : Except Err QualityScore :=
  if v = 5 then .ok .EXCELLENT
  else if v = 4 then .ok .GOOD
  else if v = 3 then .ok .AVERAGE
  else if v = 2 then .ok .FAIR
  else if v = 1 then .ok .POOR
  else .error .valueError

deriving instance DecidableEq for Except

/-- `Segment` enum from `consumers.py`. -/
inductive Segment where
  | FANCY
  | OPTIMIZER
  | AVERAGE
deriving DecidableEq, Repr

/-- The `House` dataclass from `houses.py`. -/
structure House where
  id : ℤ
  price : ℚ
  area : ℚ
  bedrooms : ℤ
  year_built : ℤ
  quality_score : Option QualityScore := none
  available : Bool := true
deriving DecidableEq, Repr

/-- Python's banker's rounding of a rational to the nearest integer
(round-half-to-even), as used by the built-in `round`. -/
def roundHalfEven (q : ℚ) : ℤ :=
  let f : ℤ := ⌊q⌋
  let r : ℚ := q - (f : ℚ)
  if r < 1/2 then f
  else if (1:ℚ)/2 < r then f + 1
  else if f % 2 = 0 then f else f + 1

/-- Python's `round(q, 2)`: round to 2 decimal places, ties to even. -/
def round2 (q : ℚ) : ℚ := ((roundHalfEven (q * 100) : ℤ) : ℚ) / 100

namespace House

/-- `House.calculate_price_per_square_foot` (`houses.py`): raises
`ValueError` when `area == 0`, otherwise returns `round(price / area, 2)`. -/
def calculate_price_per_square_foot (h : House) : Except Err ℚ :=
  if h.area = 0 then .error .divisionByZero
  else .ok (round2 (h.price / h.area))

/-- `House.is_new_construction` (`houses.py`):
`(current_year - year_built) < 5`, with `current_year` defaulting to 2024. -/
def is_new_construction (h : House) (current_year : ℤ := 2024) : Bool :=
  current_year - h.year_built < 5

/-- The `total_score` local variable of `House.get_quality_score`
(`houses.py`): a base score from the age bands — `age < 5 → 5`, `< 15 → 4`,
`< 30 → 3`, `< 50 → 2`, else `1` — plus `1` if `area > 2000` and `1` if
`bedrooms > 3`. -/
def quality_total_score (h : House) : ℤ :=
  let age : ℤ := 2024 - h.year_built
  let base_score : ℤ :=
    if age < 5 then 5
    else if age < 15 then 4
    else if age < 30 then 3
    else if age < 50 then 2
    else 1
  let size_bonus : ℤ := if h.area > 2000 then 1 else 0
  let bedroom_bonus : ℤ := if h.bedrooms > 3 then 1 else 0
  base_score + size_bonus + bedroom_bonus

/-- `House.get_quality_score` (`houses.py`): returns the house unchanged if a
score is already set; otherwise stores `QualityScore(min(total_score, 5))`.
The `Except` layer carries the `ValueError` a failed enum lookup would raise. -/
def get_quality_score (h : House) : Except Err House :=
  match h.quality_score with
  | some _ => .ok h
  | none =>
    (QualityScore.ofValue (min h.quality_total_score 5)).map
      (fun qs => { h with quality_score := some qs })

/-- `House.sell_house` (`houses.py`): mark the house unavailable. -/
def sell_house (h : House) : House := { h with available := false }

end House

/-- `HousingMarket.calculate_average_price` (`house_market.py`): filter the
houses by bedroom count when a filter is given (all houses otherwise), return
`0.0` when the filtered list is empty, else the mean price of the filtered
list.  Note the source filters only by bedrooms, never by availability. -/
def calculate_average_price (houses : List House) (bedrooms : Option ℤ) : ℚ :=
  let filtered_houses : List House :=
    match bedrooms with
    | some b => houses.filter (fun h => h.bedrooms = b)
    | none => houses
  if filtered_houses = [] then 0
  else (filtered_houses.map House.price).sum / (filtered_houses.length : ℚ)

/-- The `segment_filters` dictionary of
`HousingMarket.get_houses_that_meet_requirements` (`house_market.py`), as the
predicate each recognized segment string maps to.  `FANCY` uses Python
truthiness of the optional enum (`None` is falsy, every member truthy). -/
def segment_filter (max_price : ℤ) (s : String) (h : House) : Bool :=
  if s = "FANCY" then
    match h.quality_score with
    | none => false
    | some qs => decide (qs.value ≥ 4)
  else if s = "OPTIMIZER" then
    if h.area > 0 then
      match h.calculate_price_per_square_foot with
      | .ok ppsf => decide (ppsf < (max_price : ℚ) / h.area)
      | .error _ => false
    else false
  else if s = "AVERAGE" then
    decide (h.price ≤ (max_price : ℚ))
  else false

/-- The recognized segment strings (the keys of `segment_filters`). -/
def recognizedSegments : List String := ["FANCY", "OPTIMIZER", "AVERAGE"]

/-- `HousingMarket.get_houses_that_meet_requirements` (`house_market.py`):
raises `ValueError` for a segment string outside the three dictionary keys,
otherwise returns the houses that are available, priced at or below
`max_price`, and satisfy the segment's predicate (the trailing
`matching_houses if matching_houses else []` returns the same list in both
branches). -/
def get_houses_that_meet_requirements (houses : List House) (max_price : ℤ)
    (segment : String) : Except Err (List House) :=
  if segment ∉ recognizedSegments then .error .invalidSegment
  else
    let matching_houses := houses.filter (fun h =>
      h.available && decide (h.price ≤ (max_price : ℚ)) && segment_filter max_price segment h)
    .ok (if matching_houses = [] then [] else matching_houses)

/-- The `Consumer` dataclass from `consumers.py`.  `house` holds a reference
to a house object in the market list, modelled by its position there. -/
structure Consumer where
  id : ℤ
  annual_income : ℚ
  children_number : ℤ
  segment : Segment
  house : Option ℕ := none
  savings : ℚ := 0
  saving_rate : ℚ := 3/10
  interest_rate : ℚ := 1/20
deriving DecidableEq, Repr

namespace Consumer

/-- `Consumer.compute_savings` (`consumers.py`):
`savings = annual_income * saving_rate * ((1 + interest_rate)^years - 1) / interest_rate`.
The source divides by `interest_rate` unconditionally; the guard here models
the `ZeroDivisionError` Python raises when `interest_rate == 0` (there is no
special case in the source).  `years` is taken in `ℕ` (the spec restricts the
projection to `years ≥ 0`). -/
def compute_savings (c : Consumer) (years : ℕ) : Except Err Consumer :=
  let annual_savings := c.annual_income * c.saving_rate
  if c.interest_rate = 0 then .error .divisionByZero
  else .ok { c with
    savings := annual_savings * ((1 + c.interest_rate) ^ years - 1) / c.interest_rate }

end Consumer

/-- Pair each house with its position in the market list (object identity of
the house objects the Python list comprehensions iterate over). -/
def enumHouses : ℕ → List House → List (ℕ × House)
  | _, [] => []
  | i, h :: t => (i, h) :: enumHouses (i + 1) t

/-- The FANCY candidate test of `Consumer.buy_a_house` (`consumers.py`):
`house.available and house.is_new_construction() and house.quality_score == 5`.
In Python a plain-`Enum` member is never `==` to an `int`, and `None == 5` is
false, so the final conjunct is false for every value of the
`Optional[QualityScore]` field. -/
def fancyBuyPred (h : House) : Bool :=
  h.available && h.is_new_construction &&
    (match h.quality_score with
     | none => false
     | some _ => false)

/-- The AVERAGE candidate test of `Consumer.buy_a_house`:
`house.available and house.price <= avg_price`. -/
def averageBuyPred (avg_price : ℚ) (h : House) : Bool :=
  h.available && decide (h.price ≤ avg_price)

/-- The OPTIMIZER candidate comprehension of `Consumer.buy_a_house`:
`house.available and house.calculate_price_per_square_foot() <= annual_income/12`,
over the market's houses in order.  The `and` short-circuits, so the
price-per-square-foot (which raises on a zero area) is evaluated only for
available houses; a raise aborts the whole comprehension. -/
def optimizerSuitable (c : Consumer) : List (ℕ × House) → Except Err (List (ℕ × House))
  | [] => .ok []
  | (i, h) :: t =>
    if h.available then
      match h.calculate_price_per_square_foot with
      | .error e => .error e
      | .ok ppsf =>
        (optimizerSuitable c t).map (fun l =>
          if ppsf ≤ c.annual_income / 12 then (i, h) :: l else l)
    else optimizerSuitable c t

/-- The `suitable_houses` list built by `Consumer.buy_a_house`, by segment.
Each candidate is the house object (paired with its market position). -/
def suitable_houses (c : Consumer) (houses : List House) :
    Except Err (List (ℕ × House)) :=
  match c.segment with
  | .FANCY => .ok ((enumHouses 0 houses).filter (fun p => fancyBuyPred p.2))
  | .OPTIMIZER => optimizerSuitable c (enumHouses 0 houses)
  | .AVERAGE =>
    let avg_price := calculate_average_price houses none
    .ok ((enumHouses 0 houses).filter (fun p => averageBuyPred avg_price p.2))

/-- The purchase loop of `Consumer.buy_a_house`: walk the suitable houses in
order and buy the first one with `savings >= price` — set the owned-house
reference, call `sell_house` on the house object (position `i` in the market
list), and subtract the price from savings.  No purchase leaves consumer and
market unchanged. -/
def tryBuy (c : Consumer) (houses : List House) :
    List (ℕ × House) → Consumer × List House
  | [] => (c, houses)
  | (i, h) :: t =>
    if c.savings ≥ h.price then
      ({ c with house := some i, savings := c.savings - h.price },
       houses.set i h.sell_house)
    else tryBuy c houses t

/-- `Consumer.buy_a_house` (`consumers.py`): build the segment's candidate
list, then attempt to buy the first affordable candidate. -/
def buy_a_house (c : Consumer) (houses : List House) :
    Except Err (Consumer × List House) :=
  (suitable_houses c houses).map (tryBuy c houses)

/-- The allocation loop of `Simulation.clean_the_market` (`simulation.py`):
each consumer, in the order the cleaning mechanism produced, attempts to buy a
house from the shared market.  An exception from any attempt propagates. -/
def clean_pass (houses : List House) :
    List Consumer → Except Err (List Consumer × List House)
  | [] => .ok ([], houses)
  | c :: cs => do
    let (c', houses') ← buy_a_house c houses
    let (cs', houses'') ← clean_pass houses' cs
    pure (c' :: cs', houses'')

/-- `Simulation.compute_owners_population_rate` (`simulation.py`):
`owners / len(consumers)` with `owners` the count of consumers whose `house`
is not `None`; the guard models the `ZeroDivisionError` on an empty
population.  The source performs no simulation-stage check. -/
def compute_owners_population_rate (consumers : List Consumer) : Except Err ℚ :=
  let owners : ℕ := (consumers.filter (fun c => c.house.isSome)).length
  if consumers.length = 0 then .error .divisionByZero
  else .ok ((owners : ℚ) / (consumers.length : ℚ))

/-- `Simulation.compute_houses_availability_rate` (`simulation.py`):
`available_houses / len(houses)`; the guard models the `ZeroDivisionError` on
an empty market.  The source performs no simulation-stage check. -/
def compute_houses_availability_rate (houses : List House) : Except Err ℚ :=
  let available_houses : ℕ := (houses.filter (fun h => h.available)).length
  if houses.length = 0 then .error .divisionByZero
  else .ok ((available_houses : ℚ) / (houses.length : ℚ))

/-- Position `j` of the market holds an available house. -/
def availAt (hs : List House) (j : ℕ) : Prop :=
  ∃ h, hs.get? j = some h ∧ h.available = true

/-- Position `j` of the market holds an unavailable (sold) house. -/
def unavailAt (hs : List House) (j : ℕ) : Prop :=
  ∃ h, hs.get? j = some h ∧ h.available = false

/-- The `AnnualIncomeStatistics` dataclass from `simulation.py`. -/
structure AnnualIncomeStatistics where
  minimum : ℚ
  average : ℚ
  standard_deviation : ℚ
  maximum : ℚ
deriving DecidableEq, Repr

/-- The income-sampling loop of `Simulation.create_consumers`
(`simulation.py`, the `while True` at lines 67–70): repeatedly draw
`gauss(average, standard_deviation)` and exit only when the draw lands in
`[minimum, maximum]`.  `draws k` is the `k`-th value the random source
produces; `fuel` counts loop iterations, and `none` means the loop is still
running after `fuel` iterations — the source has no retry budget and no
error exit. -/
def sample_income_loop (stats : AnnualIncomeStatistics) (draws : ℕ → ℚ) :
    ℕ → ℕ → Option ℚ
  | _, 0 => none
  | k, fuel + 1 =>
    let income := draws k
    if stats.minimum ≤ income ∧ income ≤ stats.maximum then some income
    else sample_income_loop stats draws (k + 1) fuel

/-- Modelled from the spec: `averagePrice(bedroomFilter?)` is the "mean price
over available-and-matching properties; returns 0 when the candidate set is
empty".  Written from the spec's words, for comparison with the source
function `calculate_average_price`. -/
def averagePriceSpec (houses : List House) (bedrooms : Option ℤ) : ℚ :=
  let candidates := houses.filter (fun h => h.available &&
    match bedrooms with
    | some b => decide (h.bedrooms = b)
    | none => true)
  if candidates = [] then 0
  else (candidates.map House.price).sum / (candidates.length : ℚ)

/-! Concrete fixtures used by witnesses and counterexamples. -/

/-- An agent with a zero interest rate. -/
def consumerC1 : Consumer :=
  { id := 1, annual_income := 100, children_number := 0,
    segment := .AVERAGE, interest_rate := 0 }

/-- An unavailable two-bedroom house priced 100. -/
def houseC2 : House :=
  { id := 1, price := 100, area := 50, bedrooms := 2, year_built := 2000,
    available := false }

/-- An available house with positive area. -/
def houseC4 : House :=
  { id := 2, price := 100, area := 50, bedrooms := 2, year_built := 2000 }

/-- A house without an assigned quality score. -/
def houseC5 : House :=
  { id := 3, price := 1, area := 2500, bedrooms := 4, year_built := 2024 }

/-- A FANCY-segment agent with ample savings. -/
def consumerC6 : Consumer :=
  { id := 6, annual_income := 1000, children_number := 0,
    segment := .FANCY, savings := 1000000 }

/-- An available, new-construction (built 2024) house carrying the maximum
quality score. -/
def houseC6 : House :=
  { id := 6, price := 100, area := 50, bedrooms := 2, year_built := 2024,
    quality_score := some QualityScore.EXCELLENT }

/-- The spec's concrete clearing scenario: one house priced 100000. -/
def houseC8 : House :=
  { id := 1, price := 100000, area := 1000, bedrooms := 3, year_built := 2020 }

/-- Rich AVERAGE agent with savings 150000. -/
def consumerC8a : Consumer :=
  { id := 1, annual_income := 500000, children_number := 0,
    segment := .AVERAGE, savings := 150000 }

/-- Poor AVERAGE agent with savings 10000. -/
def consumerC8b : Consumer :=
  { id := 2, annual_income := 40000, children_number := 0,
    segment := .AVERAGE, savings := 10000 }

/-- A freshly generated agent: no owned house yet. -/
def consumerC9 : Consumer :=
  { id := 9, annual_income := 1000, children_number := 0, segment := .AVERAGE }

/-- A freshly built market house: still available. -/
def houseC9 : House :=
  { id := 9, price := 100, area := 50, bedrooms := 2, year_built := 2000 }

/-- An OPTIMIZER-segment agent. -/
def consumerC10 : Consumer :=
  { id := 10, annual_income := 1200, children_number := 0,
    segment := .OPTIMIZER, savings := 1000 }

/-- An available house with zero area. -/
def houseC10 : House :=
  { id := 11, price := 100, area := 0, bedrooms := 1, year_built := 2000 }

end RealEstateToolkit

namespace RealEstateToolkit

/-! ## Claims -/

/-- **C1.** The claim says `projectSavings` special-cases a zero interest rate
(setting `savings = annualIncome × savingRate × years`) so that no division by
zero occurs.  The source divides by `interest_rate` unconditionally: on an
agent with `interest_rate == 0` the call raises `ZeroDivisionError` instead of
setting savings to `annualIncome × savingRate × years` (here `100 × 3/10 × 1 =
30`). -/
theorem compute_savings_zero_interest_raises :
    consumerC1.interest_rate = 0 ∧
    consumerC1.annual_income * consumerC1.saving_rate * 1 = 30 ∧
    Consumer.compute_savings consumerC1 1 = Except.error Err.divisionByZero := by
  refine ⟨rfl, by norm_num [consumerC1], ?_⟩
  rfl

/-- **C2 counterexample.** `averagePrice` does not restrict to available
properties: on a market holding a single unavailable house priced 100 the
source returns 100, while the claim's candidate set (available-and-matching)
is empty and the claim therefore demands 0. -/
theorem calculate_average_price_ignores_availability :
    houseC2.available = false ∧
    calculate_average_price [houseC2] none = 100 ∧
    averagePriceSpec [houseC2] none = 0 := by
  refine ⟨rfl, ?_, ?_⟩ <;> norm_num [calculate_average_price, averagePriceSpec, houseC2, List.filter]

/-- **C2 (amended).** `averagePrice` returns the mean price over the
properties matching the bedroom filter — regardless of availability — and
returns 0 when no property matches the filter (no error is raised for the
empty case). -/
theorem calculate_average_price_bedrooms_only (houses : List House)
    (bedrooms : Option ℤ) :
    calculate_average_price houses bedrooms =
      (let fl := houses.filter (fun h =>
        match bedrooms with
        | some b => decide (h.bedrooms = b)
        | none => true)
      if fl = [] then 0 else (fl.map House.price).sum / (fl.length : ℚ)) := by
  cases bedrooms with
  | none => simp [calculate_average_price]
  | some b => rfl

/-- **C4.** `pricePerArea` returns `round(price / area, 2)` whenever the area
is positive, and raises exactly when the area is 0 (for any nonzero area,
negative included, it returns a value). -/
theorem calculate_price_per_square_foot_spec (h : House) :
    (h.area ≠ 0 →
      h.calculate_price_per_square_foot = Except.ok (round2 (h.price / h.area))) ∧
    ((∃ e, h.calculate_price_per_square_foot = Except.error e) ↔ h.area = 0) := by
  unfold House.calculate_price_per_square_foot
  refine ⟨fun hne => by rw [if_neg hne], ?_, fun h0 => ⟨.divisionByZero, by rw [if_pos h0]⟩⟩
  rintro ⟨e, he⟩
  by_contra hne
  rw [if_neg hne] at he
  exact absurd he (by simp)

/-- **C4 witness**: on a house of area 50 and price 100 the call returns
`round(100/50, 2) = 2`. -/
theorem calculate_price_per_square_foot_spec_witness :
    houseC4.calculate_price_per_square_foot =
      Except.ok (round2 (houseC4.price / houseC4.area)) :=
  (calculate_price_per_square_foot_spec houseC4).1 (by norm_num [houseC4])

/-- **C7.** The claim says the income-sampling loop has a retry budget and
fails with an `InvalidState`-class error when no in-range draw exists.  The
source loop is an unguarded `while True`: whenever the configuration makes an
in-range draw impossible (here `maximum < minimum`), the loop is still running
after every finite number of iterations, whatever the random draws are — it
never produces a value and never raises a configuration error. -/
theorem sample_income_loop_no_retry_budget (stats : AnnualIncomeStatistics)
    (hlt : stats.maximum < stats.minimum) (draws : ℕ → ℚ) (k fuel : ℕ) :
    sample_income_loop stats draws k fuel = none := by
  induction fuel generalizing k with
  | zero => rfl
  | succ n ih =>
    unfold sample_income_loop
    rw [if_neg]
    · exact ih (k + 1)
    · rintro ⟨h1, h2⟩
      exact absurd (le_trans h1 h2) (not_le.mpr hlt)

/-- **C7 witness**: with `minimum = 1 > 0 = maximum`, after 1000 iterations of
any draw stream the loop has not exited. -/
theorem sample_income_loop_no_retry_budget_witness :
    sample_income_loop ⟨1, 1/2, 1, 0⟩ (fun _ => 1/2) 0 1000 = none :=
  sample_income_loop_no_retry_budget ⟨1, 1/2, 1, 0⟩ (by norm_num) (fun _ => 1/2) 0 1000

/-- **C9 counterexample.** Neither rate function checks the simulation stage:
on a freshly generated population (no house owned yet) and a freshly built
market (house still available) — i.e. before any clearing — both calls
succeed, returning `0` and `1`, where the claim demands an
`InvalidState`-class failure. -/
theorem rates_before_clearing_return_values :
    consumerC9.house = none ∧ houseC9.available = true ∧
    compute_owners_population_rate [consumerC9] = Except.ok 0 ∧
    compute_houses_availability_rate [houseC9] = Except.ok 1 := by
  refine ⟨rfl, rfl, ?_, ?_⟩ <;>
    norm_num [compute_owners_population_rate, compute_houses_availability_rate,
      consumerC9, houseC9, List.filter]

/-- **C9 (amended).** `ownershipRate()` and `availabilityRate()` perform no
stage check: invoked at any point on a non-empty population (resp. non-empty
market) they return the fraction of agents holding a non-empty owned-property
reference (resp. the fraction of properties still available); on an empty
population or market they raise a division-by-zero, not an `InvalidState`
error. -/
theorem rates_no_stage_guard (consumers : List Consumer) (houses : List House)
    (hc : consumers ≠ []) (hh : houses ≠ []) :
    compute_owners_population_rate consumers =
      Except.ok ((consumers.countP (fun c => c.house.isSome) : ℚ) / (consumers.length : ℚ)) ∧
    compute_houses_availability_rate houses =
      Except.ok ((houses.countP (fun h => h.available) : ℚ) / (houses.length : ℚ)) ∧
    compute_owners_population_rate [] = Except.error Err.divisionByZero ∧
    compute_houses_availability_rate [] = Except.error Err.divisionByZero := by
  refine ⟨?_, ?_, rfl, rfl⟩
  · unfold compute_owners_population_rate
    rw [if_neg (fun h => hc (List.length_eq_zero.mp h)), List.countP_eq_length_filter]
  · unfold compute_houses_availability_rate
    rw [if_neg (fun h => hh (List.length_eq_zero.mp h)), List.countP_eq_length_filter]

/-- Every value in `1..5` is the value of some `QualityScore` member. -/
theorem ofValue_ok_of_range (v : ℤ) (h1 : 1 ≤ v) (h5 : v ≤ 5) :
    ∃ qs, QualityScore.ofValue v = Except.ok qs := by
  unfold QualityScore.ofValue
  interval_cases v <;> simp

/-- The capped total score is always in `1..5`, so the enum lookup in
`get_quality_score` never raises. -/
theorem ofValue_min_total_ok (h : House) :
    ∃ qs, QualityScore.ofValue (min h.quality_total_score 5) = Except.ok qs := by
  refine ofValue_ok_of_range _ (le_min ?_ (by norm_num)) (min_le_right _ _)
  unfold House.quality_total_score
  dsimp only
  split_ifs <;> norm_num

/-- **C5.** `assignQualityScore` is idempotent: the first call succeeds and
yields a house on which a second call is the identity; and on a house whose
score is already assigned, the call is a no-op (the stored score never
changes). -/
theorem get_quality_score_idempotent (h : House) :
    (∃ h', h.get_quality_score = Except.ok h' ∧
      h'.get_quality_score = Except.ok h') ∧
    (∀ q, h.quality_score = some q → h.get_quality_score = Except.ok h) := by
  constructor
  · cases hq : h.quality_score with
    | some q =>
      refine ⟨h, ?_, ?_⟩ <;> (unfold House.get_quality_score; rw [hq])
    | none =>
      obtain ⟨qs, hqs⟩ := ofValue_min_total_ok h
      refine ⟨{ h with quality_score := some qs }, ?_, ?_⟩
      · unfold House.get_quality_score
        rw [hq, hqs]
        rfl
      · unfold House.get_quality_score
        rfl
  · intro q hq
    unfold House.get_quality_score
    rw [hq]

/-- **C5 witness**: a scoreless house (built 2024, area 2500, 4 bedrooms)
receives `EXCELLENT`, and the second call leaves it unchanged. -/
theorem get_quality_score_idempotent_witness :
    houseC5.get_quality_score =
      Except.ok { houseC5 with quality_score := some QualityScore.EXCELLENT } ∧
    ({ houseC5 with quality_score := some QualityScore.EXCELLENT} : House).get_quality_score =
      Except.ok { houseC5 with quality_score := some QualityScore.EXCELLENT } := by
  have h2 := (get_quality_score_idempotent
    { houseC5 with quality_score := some QualityScore.EXCELLENT }).2
    QualityScore.EXCELLENT rfl
  have h1 : houseC5.get_quality_score =
      Except.ok { houseC5 with quality_score := some QualityScore.EXCELLENT } := by
    decide
  exact ⟨h1, h2⟩

/-- The FANCY candidate test of `buy_a_house` is false on every house:
`house.quality_score == 5` compares an `Optional[QualityScore]` against an
`int`, which no inhabitant of that field satisfies in Python. -/
theorem fancyBuyPred_false (h : House) : fancyBuyPred h = false := by
  unfold fancyBuyPred
  cases h.quality_score <;> simp

/-- **C6.** The claim says a FANCY agent's candidate list holds exactly the
available, new-construction houses of maximal quality score.  In the source
the list comprehension's last conjunct `house.quality_score == 5` is always
false (a plain-`Enum` member never equals an `int`), so the candidate list is
always empty and a FANCY agent never purchases: `buy_a_house` returns consumer
and market unchanged — even though e.g. `houseC6` is available, new
construction, and carries the maximum score, contradicting the claim's "in
particular" instance. -/
theorem fancy_buy_never_purchases (c : Consumer) (houses : List House)
    (hs : c.segment = Segment.FANCY) :
    buy_a_house c houses = Except.ok (c, houses) ∧
    houseC6.available = true ∧
    houseC6.is_new_construction = true ∧
    houseC6.quality_score = some QualityScore.EXCELLENT ∧
    fancyBuyPred houseC6 = false := by
  refine ⟨?_, rfl, rfl, rfl, fancyBuyPred_false _⟩
  have hsuit : suitable_houses c houses = Except.ok [] := by
    unfold suitable_houses
    rw [hs]
    simp [fancyBuyPred_false]
  simp [buy_a_house, hsuit, tryBuy, Except.map]

/-- **C6 witness**: a rich FANCY agent facing exactly the ideal house buys
nothing. -/
theorem fancy_buy_never_purchases_witness :
    buy_a_house consumerC6 [houseC6] = Except.ok (consumerC6, [houseC6]) :=
  (fancy_buy_never_purchases consumerC6 [houseC6] rfl).1

/-- `if l = [] then [] else l` is `l`. -/
theorem ite_nil_self (l : List House) : (if l = [] then [] else l) = l := by
  split
  · simp [*]
  · rfl

/-- The FANCY requirements predicate holds iff a quality score is assigned
and its value is at least 4. -/
theorem segment_filter_fancy (mp : ℤ) (h : House) :
    segment_filter mp "FANCY" h = true ↔
      ∃ qs, h.quality_score = some qs ∧ 4 ≤ qs.value := by
  unfold segment_filter
  rw [if_pos rfl]
  cases h.quality_score <;> simp

/-- The OPTIMIZER requirements predicate holds iff the area is positive and
the (rounded) price per square foot is below `max_price / area`. -/
theorem segment_filter_optimizer (mp : ℤ) (h : House) :
    segment_filter mp "OPTIMIZER" h = true ↔
      0 < h.area ∧ round2 (h.price / h.area) < (mp : ℚ) / h.area := by
  unfold segment_filter
  rw [if_neg (by decide), if_pos rfl]
  by_cases ha : h.area > 0
  · rw [if_pos ha]
    unfold House.calculate_price_per_square_foot
    rw [if_neg (ne_of_gt ha)]
    simp [ha]
  · rw [if_neg ha]
    simp [ha]

/-- The AVERAGE requirements predicate holds iff the price is at most
`max_price`. -/
theorem segment_filter_average (mp : ℤ) (h : House) :
    segment_filter mp "AVERAGE" h = true ↔ h.price ≤ (mp : ℚ) := by
  unfold segment_filter
  rw [if_neg (by decide), if_neg (by decide), if_pos rfl]
  simp

/-- On a recognized segment string the requirements query returns the
filtered house list. -/
theorem ghmr_recognized (houses : List House) (mp : ℤ) (s : String)
    (hs : s ∈ recognizedSegments) :
    get_houses_that_meet_requirements houses mp s =
      Except.ok (houses.filter (fun h =>
        h.available && decide (h.price ≤ (mp : ℚ)) && segment_filter mp s h)) := by
  unfold get_houses_that_meet_requirements
  rw [if_neg (not_not_intro hs)]
  dsimp only
  rw [ite_nil_self]

/-- **C3.** For each recognized segment, `matchingRequirements` succeeds and
returns exactly the houses that are available, priced at or below `maxPrice`,
and satisfy the segment predicate (FANCY: score assigned and ≥ 4; OPTIMIZER:
rounded price-per-area `< maxPrice/area`, false when `area ≤ 0`; AVERAGE:
`price ≤ maxPrice`); for any other segment string it fails with
`InvalidSegment`. -/
theorem get_houses_that_meet_requirements_spec (houses : List House)
    (mp : ℤ) (s : String) :
    (s = "FANCY" → ∃ l, get_houses_that_meet_requirements houses mp s = Except.ok l ∧
      ∀ h : House, h ∈ l ↔ h ∈ houses ∧ h.available = true ∧ h.price ≤ (mp : ℚ) ∧
        ∃ qs, h.quality_score = some qs ∧ 4 ≤ qs.value) ∧
    (s = "OPTIMIZER" → ∃ l, get_houses_that_meet_requirements houses mp s = Except.ok l ∧
      ∀ h : House, h ∈ l ↔ h ∈ houses ∧ h.available = true ∧ h.price ≤ (mp : ℚ) ∧
        0 < h.area ∧ round2 (h.price / h.area) < (mp : ℚ) / h.area) ∧
    (s = "AVERAGE" → ∃ l, get_houses_that_meet_requirements houses mp s = Except.ok l ∧
      ∀ h : House, h ∈ l ↔ h ∈ houses ∧ h.available = true ∧ h.price ≤ (mp : ℚ)) ∧
    (s ∉ recognizedSegments →
      get_houses_that_meet_requirements houses mp s = Except.error Err.invalidSegment) := by
  refine ⟨?_, ?_, ?_, ?_⟩
  · rintro rfl
    refine ⟨_, ghmr_recognized houses mp _ (by decide), fun h => ?_⟩
    rw [List.mem_filter]
    simp only [Bool.and_eq_true, decide_eq_true_eq, segment_filter_fancy]
    tauto
  · rintro rfl
    refine ⟨_, ghmr_recognized houses mp _ (by decide), fun h => ?_⟩
    rw [List.mem_filter]
    simp only [Bool.and_eq_true, decide_eq_true_eq, segment_filter_optimizer]
    tauto
  · rintro rfl
    refine ⟨_, ghmr_recognized houses mp _ (by decide), fun h => ?_⟩
    rw [List.mem_filter]
    simp only [Bool.and_eq_true, decide_eq_true_eq, segment_filter_average]
    tauto
  · intro hs
    unfold get_houses_that_meet_requirements
    rw [if_pos hs]

/-- **C3 witness**: the spec's concrete scenario — segment `"BOGUS"` with
`maxPrice = 50000` fails with `InvalidSegment` — plus a successful AVERAGE
query returning the one matching house. -/
theorem get_houses_that_meet_requirements_spec_witness :
    get_houses_that_meet_requirements [houseC4] 50000 "BOGUS" =
      Except.error Err.invalidSegment ∧
    (∃ l, get_houses_that_meet_requirements [houseC4] 50000 "AVERAGE" = Except.ok l ∧
      ∀ h : House, h ∈ l ↔ h ∈ [houseC4] ∧ h.available = true ∧ h.price ≤ ((50000 : ℤ) : ℚ)) :=
  ⟨(get_houses_that_meet_requirements_spec [houseC4] 50000 "BOGUS").2.2.2 (by decide),
   (get_houses_that_meet_requirements_spec [houseC4] 50000 "AVERAGE").2.2.1 rfl⟩

/-- Every house of the market appears (with some index) in its enumeration. -/
theorem enumHouses_mem {hs : List House} :
    ∀ {k : ℕ} {h : House}, h ∈ hs → ∃ j, (j, h) ∈ enumHouses k hs := by
  induction hs with
  | nil => intro k h hm; simp at hm
  | cons h₀ t ih =>
    intro k h hm
    rcases List.mem_cons.mp hm with rfl | hmem
    · exact ⟨k, List.mem_cons_self _ _⟩
    · obtain ⟨j, hj⟩ := ih (k := k + 1) hmem
      exact ⟨j, List.mem_cons_of_mem _ hj⟩

/-- If some available house in the (enumerated) market has zero area, the
OPTIMIZER candidate comprehension aborts with the division error. -/
theorem optimizerSuitable_error_of_zero_area (c : Consumer) :
    ∀ l : List (ℕ × House), (∃ p ∈ l, p.2.available = true ∧ p.2.area = 0) →
      optimizerSuitable c l = Except.error Err.divisionByZero := by
  intro l
  induction l with
  | nil => rintro ⟨p, hp, -⟩; simp at hp
  | cons q t ih =>
    rintro ⟨p, hp, hav, har⟩
    obtain ⟨i, h⟩ := q
    rcases List.mem_cons.mp hp with rfl | hmem
    · unfold optimizerSuitable
      rw [if_pos hav]
      unfold House.calculate_price_per_square_foot
      rw [if_pos har]
    · have htail := ih ⟨p, hmem, hav, har⟩
      unfold optimizerSuitable
      by_cases hA : h.available = true
      · rw [if_pos hA]
        by_cases h0 : h.area = 0
        · unfold House.calculate_price_per_square_foot
          rw [if_pos h0]
        · unfold House.calculate_price_per_square_foot
          rw [if_neg h0]
          rw [htail]
          rfl
      · rw [if_neg hA]
        exact htail

/-- **C10.** An OPTIMIZER agent's purchase attempt evaluates the
price-per-square-foot of every available house with no guard on the area:
when the market holds an available zero-area house, `buy_a_house` raises the
`DivisionByZero`-kind error, aborting the agent's round — whereas the
inventory-level requirements query never raises for OPTIMIZER and simply
excludes that house. -/
theorem optimizer_zero_area_aborts (c : Consumer) (houses : List House)
    (h : House) (hseg : c.segment = Segment.OPTIMIZER) (hmem : h ∈ houses)
    (hav : h.available = true) (h0 : h.area = 0) :
    buy_a_house c houses = Except.error Err.divisionByZero ∧
    ∀ mp : ℤ, ∃ l, get_houses_that_meet_requirements houses mp "OPTIMIZER" =
      Except.ok l ∧ h ∉ l := by
  constructor
  · obtain ⟨j, hj⟩ := enumHouses_mem (k := 0) hmem
    have hsuit : suitable_houses c houses = Except.error Err.divisionByZero := by
      unfold suitable_houses
      rw [hseg]
      exact optimizerSuitable_error_of_zero_area c _ ⟨(j, h), hj, hav, h0⟩
    simp [buy_a_house, hsuit, Except.map]
  · intro mp
    refine ⟨_, ghmr_recognized houses mp _ (by decide), fun hin => ?_⟩
    have := (List.mem_filter.mp hin).2
    simp only [Bool.and_eq_true, decide_eq_true_eq, segment_filter_optimizer] at this
    exact absurd h0 (ne_of_gt this.2.1)

/-- **C10 witness**: an OPTIMIZER agent facing a market whose second house is
available with zero area aborts with the division error, while the
requirements query at `maxPrice = 500` succeeds without that house. -/
theorem optimizer_zero_area_aborts_witness :
    buy_a_house consumerC10 [houseC9, houseC10] = Except.error Err.divisionByZero ∧
    ∃ l, get_houses_that_meet_requirements [houseC9, houseC10] 500 "OPTIMIZER" =
      Except.ok l ∧ houseC10 ∉ l :=
  ⟨(optimizer_zero_area_aborts consumerC10 [houseC9, houseC10] houseC10 rfl
      (by decide) rfl rfl).1,
   (optimizer_zero_area_aborts consumerC10 [houseC9, houseC10] houseC10 rfl
      (by decide) rfl rfl).2 500⟩

/-- A pair in the market's enumeration records a house at its position. -/
theorem mem_enumHouses {hs : List House} :
    ∀ {k j : ℕ} {h : House}, (j, h) ∈ enumHouses k hs →
      ∃ m, j = k + m ∧ hs.get? m = some h := by
  induction hs with
  | nil => intro k j h hm; simp [enumHouses] at hm
  | cons h₀ t ih =>
    intro k j h hm
    rcases List.mem_cons.mp hm with heq | hmem
    · obtain ⟨rfl, rfl⟩ := Prod.mk.injEq .. ▸ heq
      exact ⟨0, by omega, rfl⟩
    · obtain ⟨m, hm1, hm2⟩ := ih hmem
      exact ⟨m + 1, by omega, by simpa using hm2⟩

/-- No position holds a house that is both available and unavailable. -/
theorem not_availAt_of_unavailAt {hs : List House} {j : ℕ}
    (ha : availAt hs j) (hu : unavailAt hs j) : False := by
  obtain ⟨h1, hg1, hb1⟩ := ha
  obtain ⟨h2, hg2, hb2⟩ := hu
  rw [hg1] at hg2
  cases hg2
  rw [hb1] at hb2
  simp at hb2

/-- Every pair the OPTIMIZER comprehension keeps comes from its input and is
available. -/
theorem optimizerSuitable_sub (c : Consumer) :
    ∀ (l r : List (ℕ × House)), optimizerSuitable c l = Except.ok r →
      ∀ p ∈ r, p ∈ l ∧ p.2.available = true := by
  intro l
  induction l with
  | nil =>
    intro r hr p hp
    cases hr
    simp at hp
  | cons q t ih =>
    intro r hr p hp
    obtain ⟨i, h⟩ := q
    unfold optimizerSuitable at hr
    by_cases hA : h.available = true
    · rw [if_pos hA] at hr
      cases hcalc : h.calculate_price_per_square_foot with
      | error e => rw [hcalc] at hr; exact absurd hr (by simp)
      | ok ppsf =>
        rw [hcalc] at hr
        cases htail : optimizerSuitable c t with
        | error e => rw [htail] at hr; exact absurd hr (by simp [Except.map])
        | ok r' =>
          rw [htail] at hr
          simp only [Except.map, Except.ok.injEq] at hr
          subst hr
          by_cases hle : ppsf ≤ c.annual_income / 12
          · rw [if_pos hle] at hp
            rcases List.mem_cons.mp hp with rfl | hmem
            · exact ⟨List.mem_cons_self _ _, hA⟩
            · obtain ⟨h1, h2⟩ := ih r' htail p hmem
              exact ⟨List.mem_cons_of_mem _ h1, h2⟩
          · rw [if_neg hle] at hp
            obtain ⟨h1, h2⟩ := ih r' htail p hp
            exact ⟨List.mem_cons_of_mem _ h1, h2⟩
    · rw [if_neg hA] at hr
      obtain ⟨h1, h2⟩ := ih r hr p hp
      exact ⟨List.mem_cons_of_mem _ h1, h2⟩

/-- Every candidate pair of `suitable_houses` records an available house at
its market position. -/
theorem suitable_houses_sound (c : Consumer) (houses : List House)
    (l : List (ℕ × House)) (hs : suitable_houses c houses = Except.ok l) :
    ∀ p ∈ l, houses.get? p.1 = some p.2 ∧ p.2.available = true := by
  intro p hp
  obtain ⟨i, h⟩ := p
  unfold suitable_houses at hs
  cases hseg : c.segment with
  | FANCY =>
    rw [hseg] at hs
    cases hs
    have := (List.mem_filter.mp hp).2
    rw [fancyBuyPred_false] at this
    exact absurd this (by simp)
  | OPTIMIZER =>
    rw [hseg] at hs
    obtain ⟨hmem, hA⟩ := optimizerSuitable_sub c _ l hs _ hp
    obtain ⟨m, hm1, hm2⟩ := mem_enumHouses hmem
    refine ⟨?_, hA⟩
    rw [hm1]
    simpa using hm2
  | AVERAGE =>
    rw [hseg] at hs
    cases hs
    obtain ⟨hmem, hpred⟩ := List.mem_filter.mp hp
    obtain ⟨m, hm1, hm2⟩ := mem_enumHouses hmem
    refine ⟨by rw [hm1]; simpa using hm2, ?_⟩
    unfold averageBuyPred at hpred
    exact (Bool.and_eq_true ..▸ hpred).1

/-- The purchase loop either leaves consumer and market unchanged or buys
some candidate pair. -/
theorem tryBuy_cases (c : Consumer) (houses : List House) :
    ∀ l : List (ℕ × House),
      tryBuy c houses l = (c, houses) ∨
      ∃ i h, (i, h) ∈ l ∧
        tryBuy c houses l =
          ({ c with house := some i, savings := c.savings - h.price },
            houses.set i h.sell_house) := by
  intro l
  induction l with
  | nil => exact Or.inl rfl
  | cons q t ih =>
    obtain ⟨i, h⟩ := q
    unfold tryBuy
    by_cases hle : c.savings ≥ h.price
    · rw [if_pos hle]
      exact Or.inr ⟨i, h, List.mem_cons_self _ _, rfl⟩
    · rw [if_neg hle]
      rcases ih with h1 | ⟨i', h', hm, he⟩
      · exact Or.inl h1
      · exact Or.inr ⟨i', h', List.mem_cons_of_mem _ hm, he⟩

/-- Selling the house at one position preserves every sold position. -/
theorem unavailAt_set_sell {hs : List House} {j : ℕ} (i : ℕ) (h : House)
    (hu : unavailAt hs j) : unavailAt (hs.set i h.sell_house) j := by
  obtain ⟨h', hg, hb⟩ := hu
  by_cases hij : i = j
  · subst hij
    exact ⟨h.sell_house, by rw [List.get?_set_eq, hg]; rfl, rfl⟩
  · exact ⟨h', by rw [List.get?_set_ne _ _ hij, hg], hb⟩

/-- A position still available after a sale was available before it. -/
theorem availAt_of_set_sell {hs : List House} {j : ℕ} {i : ℕ} {h : House}
    (ha : availAt (hs.set i h.sell_house) j) : availAt hs j := by
  obtain ⟨h', hg, hb⟩ := ha
  by_cases hij : i = j
  · subst hij
    rw [List.get?_set_eq] at hg
    cases hgo : hs.get? i with
    | none => rw [hgo] at hg; exact absurd hg (by simp)
    | some h₀ =>
      rw [hgo] at hg
      simp only [Option.map_eq_map, Option.map_some', Option.some.injEq] at hg
      rw [← hg] at hb
      exact absurd hb (by simp [House.sell_house])
  · rw [List.get?_set_ne _ _ hij] at hg
    exact ⟨h', hg, hb⟩

/-- One purchase attempt: the market keeps its length, sold positions stay
sold, positions available afterwards were available before, and either
nothing changes or the consumer ends up owning a position that was available
before and is sold afterwards. -/
theorem buy_a_house_step (c : Consumer) (houses : List House)
    (c' : Consumer) (houses' : List House)
    (hb : buy_a_house c houses = Except.ok (c', houses')) :
    houses'.length = houses.length ∧
    (∀ j, unavailAt houses j → unavailAt houses' j) ∧
    (∀ j, availAt houses' j → availAt houses j) ∧
    ((c' = c ∧ houses' = houses) ∨
      ∃ i, c'.house = some i ∧ availAt houses i ∧ unavailAt houses' i) := by
  unfold buy_a_house at hb
  cases hs : suitable_houses c houses with
  | error e => rw [hs] at hb; exact absurd hb (by simp [Except.map])
  | ok l =>
    rw [hs] at hb
    simp only [Except.map, Except.ok.injEq] at hb
    have hsound := suitable_houses_sound c houses l hs
    rcases tryBuy_cases c houses l with hid | ⟨i, h, hm, he⟩
    · rw [hid] at hb
      obtain ⟨rfl, rfl⟩ := Prod.mk.injEq .. ▸ hb.symm
      exact ⟨rfl, fun j hj => hj, fun j hj => hj, Or.inl ⟨rfl, rfl⟩⟩
    · rw [he] at hb
      obtain ⟨rfl, rfl⟩ := Prod.mk.injEq .. ▸ hb.symm
      obtain ⟨hget, hA⟩ := hsound (i, h) hm
      refine ⟨List.length_set .., fun j hj => unavailAt_set_sell i h hj,
        fun j hj => availAt_of_set_sell hj, Or.inr ⟨i, rfl, ⟨h, hget, hA⟩, ?_⟩⟩
      exact ⟨h.sell_house, by rw [List.get?_set_eq, hget]; rfl, rfl⟩

/-- The clearing pass invariant: sold positions stay sold; every owned
position was available when the pass reached its buyer and is sold at the
end; and no position is owned by two consumers. -/
theorem clean_pass_inv :
    ∀ (consumers : List Consumer) (houses : List House)
      (consumers' : List Consumer) (houses' : List House),
      (∀ c ∈ consumers, c.house = none) →
      clean_pass houses consumers = Except.ok (consumers', houses') →
      (∀ j, unavailAt houses j → unavailAt houses' j) ∧
      (∀ c' ∈ consumers', ∀ i, c'.house = some i →
        availAt houses i ∧ unavailAt houses' i) ∧
      (∀ i, consumers'.countP (fun c => decide (c.house = some i)) ≤ 1) := by
  intro consumers
  induction consumers with
  | nil =>
    intro houses consumers' houses' hfresh hrun
    cases hrun
    exact ⟨fun j hj => hj, by simp, by simp [List.countP_nil]⟩
  | cons c cs ih =>
    intro houses consumers' houses' hfresh hrun
    unfold clean_pass at hrun
    cases hb : buy_a_house c houses with
    | error e => rw [hb] at hrun; exact absurd hrun (by simp [Bind.bind, Except.bind])
    | ok res =>
      obtain ⟨c₁, houses₁⟩ := res
      rw [hb] at hrun
      simp only [Bind.bind, Except.bind] at hrun
      cases hcp : clean_pass houses₁ cs with
      | error e =>
        rw [hcp] at hrun
        exact absurd hrun (by simp)
      | ok res₂ =>
        obtain ⟨cs', houses₂⟩ := res₂
        rw [hcp] at hrun
        simp only [pure, Except.pure, Except.ok.injEq] at hrun
        obtain ⟨rfl, rfl⟩ := Prod.mk.injEq .. ▸ hrun.symm
        obtain ⟨hlen, hupres, harefl, hcase⟩ :=
          buy_a_house_step c houses c₁ houses₁ hb
        obtain ⟨ihpres, ihown, ihuniq⟩ :=
          ih houses₁ cs' houses' (fun x hx => hfresh x (List.mem_cons_of_mem _ hx)) hcp
        have hownall : ∀ c' ∈ c₁ :: cs', ∀ i, c'.house = some i →
            availAt houses i ∧ unavailAt houses' i := by
          intro c' hc' i hi
          rcases List.mem_cons.mp hc' with rfl | hmem
          · rcases hcase with ⟨hceq, hheq⟩ | ⟨i₀, hh, hava, hunav⟩
            · rw [hceq, hfresh c (List.mem_cons_self _ _)] at hi
              exact absurd hi (by simp)
            · rw [hh] at hi
              cases hi
              exact ⟨hava, ihpres _ hunav⟩
          · obtain ⟨ha1, ha2⟩ := ihown c' hmem i hi
            exact ⟨harefl i ha1, ha2⟩
        refine ⟨fun j hj => ihpres j (hupres j hj), hownall, ?_⟩
        intro i
        rw [List.countP_cons]
        by_cases hc₁ : c₁.house = some i
        · have hzero : cs'.countP (fun c => decide (c.house = some i)) = 0 := by
            rw [List.countP_eq_zero]
            intro c'' hc'' hp
            have hi'' : c''.house = some i := by simpa using hp
            have hava₁ : availAt houses₁ i := (ihown c'' hc'' i hi'').1
            rcases hcase with ⟨hceq, hheq⟩ | ⟨i₀, hh, hava, hunav⟩
            · rw [hceq, hfresh c (List.mem_cons_self _ _)] at hc₁
              exact absurd hc₁ (by simp)
            · rw [hh] at hc₁
              cases hc₁
              exact not_availAt_of_unavailAt hava₁ hunav
          rw [hzero]
          simp [hc₁]
        · have hdec : decide (c₁.house = some i) = false := by simp [hc₁]
          simp only [hdec]
          simpa using ihuniq i

/-- **C8.** After one clearing pass over any population of freshly created
agents (no house owned yet, in whatever order the cleaning mechanism
produced) and any market, no market position is owned by two agents, and
every position referenced as owned holds a house whose availability flag is
false. -/
theorem clean_market_ownership_invariant (consumers : List Consumer)
    (houses : List House) (consumers' : List Consumer) (houses' : List House)
    (hfresh : ∀ c ∈ consumers, c.house = none)
    (hrun : clean_pass houses consumers = Except.ok (consumers', houses')) :
    (∀ i, consumers'.countP (fun c => decide (c.house = some i)) ≤ 1) ∧
    (∀ c' ∈ consumers', ∀ i, c'.house = some i →
      ∃ h, houses'.get? i = some h ∧ h.available = false) := by
  obtain ⟨-, hown, huniq⟩ :=
    clean_pass_inv consumers houses consumers' houses' hfresh hrun
  exact ⟨huniq, fun c' hc' i hi => (hown c' hc' i hi).2⟩

/-- **C8 witness**: the spec's concrete scenario — one house priced 100000,
a rich and a poor AVERAGE agent in descending income order; the rich agent
buys position 0 and the invariant holds for the resulting state. -/
theorem clean_market_ownership_invariant_witness :
    (∀ i, ([{ consumerC8a with house := some 0, savings := 50000 },
        consumerC8b] : List Consumer).countP
        (fun c => decide (c.house = some i)) ≤ 1) ∧
    (∀ c' ∈ ([{ consumerC8a with house := some 0, savings := 50000 },
        consumerC8b] : List Consumer), ∀ i, c'.house = some i →
      ∃ h, [houseC8.sell_house].get? i = some h ∧ h.available = false) :=
  clean_market_ownership_invariant [consumerC8a, consumerC8b] [houseC8]
    [{ consumerC8a with house := some 0, savings := 50000 }, consumerC8b]
    [houseC8.sell_house]
    (by intro c hc; rcases List.mem_cons.mp hc with rfl | hc <;> simp_all [consumerC8a, consumerC8b])
    (by norm_num [clean_pass, buy_a_house, suitable_houses, calculate_average_price,
      averageBuyPred, enumHouses, tryBuy, Except.map, consumerC8a, consumerC8b,
      houseC8, House.sell_house, Bind.bind, Except.bind, pure, Except.pure, List.filter])

/-- **C9 (amended) witness**: a one-agent population with no owned house and a
one-house market with the house available give rates `0` and `1`. -/
theorem rates_no_stage_guard_witness :
    compute_owners_population_rate [consumerC9] =
      Except.ok ((([consumerC9] : List Consumer).countP (fun c => c.house.isSome) : ℚ) / 1) ∧
    compute_houses_availability_rate [houseC9] =
      Except.ok ((([houseC9] : List House).countP (fun h => h.available) : ℚ) / 1) := by
  have := rates_no_stage_guard [consumerC9] [houseC9] (by simp) (by simp)
  exact ⟨this.1, this.2.1⟩

end RealEstateToolkit
